import Mathlib

/-!
Shallow embedding of the request-resilience pipeline of the
Angular18-Project-skeleton repository: the in-memory response cache
(`CacheService`), the cache interceptor strategies (`CacheInterceptor`),
the retry interceptor (`RetryInterceptor`), the credential store
(`TokenService`) and the token refresher (`RefreshTokenService`).

Machine numbers (epoch milliseconds, TTLs, HTTP status codes) are
modelled as `Nat`; `undefined`/`null` as `Option`; a JavaScript `Map`
as an association list kept in insertion order, matching the iteration
order the source relies on.
-/

/-- JavaScript truthiness of an optional number: `undefined` and `0`
are falsy, every other number is truthy. -/
def truthyNum : Option Nat → Bool
  | none => false
  | some n => n != 0

/-- `Map.prototype.get`: the (unique) binding of the key. -/
def mapGet {E : Type} : List (String × E) → String → Option E
  | [], _ => none
  | p :: rest, k => if p.1 = k then some p.2 else mapGet rest k

/-- `Map.prototype.has`. -/
def mapHas {E : Type} : List (String × E) → String → Bool
  | [], _ => false
  | p :: rest, k => p.1 = k || mapHas rest k

/-- `Map.prototype.set`: replaces in place when the key is present
(keeping its insertion position), appends at the end otherwise. -/
def mapSet {E : Type} : List (String × E) → String → E → List (String × E)
  | [], k, e => [(k, e)]
  | p :: rest, k, e => if p.1 = k then (k, e) :: rest else p :: mapSet rest k e

/-- `Map.prototype.delete`: removes the binding of the key. -/
def mapDelete {E : Type} : List (String × E) → String → List (String × E)
  | [], _ => []
  | p :: rest, k => if p.1 = k then mapDelete rest k else p :: mapDelete rest k

/-- The two eviction strategies of `ICacheConfig` (cache.interface.ts). -/
inductive EvictionStrategy : Type
  | LRU
  | FIFO
deriving DecidableEq

/-- `ICacheEntry` (cache.interface.ts): `timestamp` is `Date.now()` at
creation, `ttl`/`expiresAt` are optional numbers. -/
structure ICacheEntry (V : Type) where
  key : String
  value : V
  timestamp : Nat
  ttl : Option Nat
  expiresAt : Option Nat
deriving DecidableEq

/-- `ICacheConfig` (cache.interface.ts): every field optional. -/
structure ICacheConfig where
  ttl : Option Nat
  maxSize : Option Nat
  strategy : Option EvictionStrategy
  enabled : Option Bool
deriving DecidableEq

/-- The mutable `stats` record of `CacheService`. -/
structure CacheStats where
  hits : Nat
  misses : Nat
  evictions : Nat
deriving DecidableEq

/-- The mutable state of a `CacheService` instance: the `cache` map and
the `stats` counters. -/
structure CacheState (V : Type) where
  entries : List (String × ICacheEntry V)
  stats : CacheStats
deriving DecidableEq

/-- `DEFAULT_CACHE_CONFIG` (cache-config.ts). -/
def DEFAULT_CACHE_CONFIG : ICacheConfig :=
  { ttl := some (5 * 60 * 1000), maxSize := some 100,
    strategy := some .LRU, enabled := some true }

namespace CacheService

/-- `CacheService.isExpired`: `if (!entry.expiresAt) return false;
return Date.now() >= entry.expiresAt;`. -/
def isExpired {V : Type} (now : Nat) (entry : ICacheEntry V) : Bool :=
  if !truthyNum entry.expiresAt then false
  else decide (now ≥ entry.expiresAt.getD 0)

/-- `CacheService.get`: miss (counted) on an absent key; an expired
entry is deleted and counted as a miss; otherwise a counted hit. -/
def get {V : Type} (now : Nat) (key : String) (s : CacheState V) :
    Option V × CacheState V :=
  match mapGet s.entries key with
  | none =>
    (none, { s with stats := { s.stats with misses := s.stats.misses + 1 } })
  | some entry =>
    if isExpired now entry then
      (none, { entries := mapDelete s.entries key,
               stats := { s.stats with misses := s.stats.misses + 1 } })
    else
      (some entry.value,
       { s with stats := { s.stats with hits := s.stats.hits + 1 } })

/-- The scan of `CacheService.evict`: walks the map in insertion order
keeping the first key whose timestamp is strictly below the best so far
(`oldestTimestamp` starts at `Infinity`, modelled by `none`). -/
def findOldestGo {V : Type} :
    Option (String × Nat) → List (String × ICacheEntry V) →
    Option (String × Nat)
  | acc, [] => acc
  | acc, (k, e) :: rest =>
    match acc with
    | none => findOldestGo (some (k, e.timestamp)) rest
    | some (k0, t0) =>
      if e.timestamp < t0 then findOldestGo (some (k, e.timestamp)) rest
      else findOldestGo (some (k0, t0)) rest

/-- Key (and timestamp) selected by the eviction scan. -/
def findOldest {V : Type} (l : List (String × ICacheEntry V)) :
    Option (String × Nat) :=
  findOldestGo none l

/-- `CacheService.evict`: under both `LRU` and `FIFO` the entry with the
oldest timestamp is removed and `evictions` incremented; with no
strategy configured `keyToEvict` stays null and nothing happens. -/
def evict {V : Type} (config : ICacheConfig) (s : CacheState V) :
    CacheState V :=
  if s.entries.isEmpty then s
  else
    let keyToEvict : Option (String × Nat) :=
      if config.strategy = some .LRU ∨ config.strategy = some .FIFO then
        findOldest s.entries
      else none
    match keyToEvict with
    | none => s
    | some (k, _) =>
      { entries := mapDelete s.entries k,
        stats := { s.stats with evictions := s.stats.evictions + 1 } }

/-- `CacheService.set`: no-op returning false when caching is disabled;
`entryTtl = ttl ?? config.ttl`; `expiresAt` is set only when `entryTtl`
is truthy (so a TTL of `0` yields an entry that never expires); evicts
before inserting when `config.maxSize` is truthy and `size >= maxSize`. -/
def set {V : Type} (config : ICacheConfig) (now : Nat) (key : String)
    (value : V) (ttl : Option Nat) (s : CacheState V) :
    Bool × CacheState V :=
  if config.enabled = some true then
    let entryTtl := ttl.orElse (fun _ => config.ttl)
    let expiresAt :=
      if truthyNum entryTtl then some (now + entryTtl.getD 0) else none
    let entry : ICacheEntry V :=
      { key := key, value := value, timestamp := now,
        ttl := entryTtl, expiresAt := expiresAt }
    let s1 :=
      if truthyNum config.maxSize &&
          decide (s.entries.length ≥ config.maxSize.getD 0) then
        evict config s
      else s
    (true, { s1 with entries := mapSet s1.entries key entry })
  else (false, s)

end CacheService

/-- The four cache strategies of `CacheStrategy` (cache.interface.ts). -/
inductive CacheStrategy : Type
  | cacheFirst
  | networkFirst
  | cacheOnly
  | networkOnly
deriving DecidableEq

/-- What `next.handle(request)` produces for one subscription: an
`HttpResponse` carrying a value, or an `HttpErrorResponse` with a
status code. -/
inductive NetworkOutcome (V : Type) : Type
  | response (v : V)
  | failure (status : Nat)
deriving DecidableEq

/-- Errors a cache-interceptor handler can surface: the
`Error('Cache miss for cache-only strategy')` thrown by
`handleCacheOnly`, or a propagated HTTP failure. -/
inductive InterceptError : Type
  | cacheMiss
  | http (status : Nat)
deriving DecidableEq

/-- Terminal outcome of one intercepted call. -/
inductive InterceptOutcome (V : Type) : Type
  | response (v : V)
  | error (e : InterceptError)
deriving DecidableEq

/-- Observable effect of running one handler: its outcome, the cache
state it leaves behind, and how many times it subscribed to
`next.handle` (network calls issued). -/
structure HandlerResult (V : Type) where
  outcome : InterceptOutcome V
  cache : CacheState V
  networkCalls : Nat
deriving DecidableEq

namespace CacheInterceptor

/-- `CacheInterceptor.handleCacheOnly`: reads the cache and throws on a
miss; `next.handle` is never invoked (0 network calls on every path). -/
def handleCacheOnly {V : Type} (now : Nat) (key : String)
    (s : CacheState V) : HandlerResult V :=
  match CacheService.get now key s with
  | (none, s1) => { outcome := .error .cacheMiss, cache := s1, networkCalls := 0 }
  | (some v, s1) => { outcome := .response v, cache := s1, networkCalls := 0 }

/-- `CacheInterceptor.handleNetworkOnly`: always executes the network
call; a successful `HttpResponse` is written through to the cache via
`tap`; a failure is propagated with the cache untouched. -/
def handleNetworkOnly {V : Type} (config : ICacheConfig) (now : Nat)
    (key : String) (ttl : Option Nat) (net : NetworkOutcome V)
    (s : CacheState V) : HandlerResult V :=
  match net with
  | .response v =>
    { outcome := .response v,
      cache := (CacheService.set config now key v ttl s).2,
      networkCalls := 1 }
  | .failure status =>
    { outcome := .error (.http status), cache := s, networkCalls := 1 }

/-- `CacheInterceptor.handleNetworkFirst`: textually the same body as
`handleNetworkOnly` in the source — network call, write-through on
success, propagate on failure. -/
def handleNetworkFirst {V : Type} (config : ICacheConfig) (now : Nat)
    (key : String) (ttl : Option Nat) (net : NetworkOutcome V)
    (s : CacheState V) : HandlerResult V :=
  match net with
  | .response v =>
    { outcome := .response v,
      cache := (CacheService.set config now key v ttl s).2,
      networkCalls := 1 }
  | .failure status =>
    { outcome := .error (.http status), cache := s, networkCalls := 1 }

/-- `CacheInterceptor.handleCacheFirst`: serve a hit without touching
the network; on a miss, execute and write through. -/
def handleCacheFirst {V : Type} (config : ICacheConfig) (now : Nat)
    (key : String) (ttl : Option Nat) (net : NetworkOutcome V)
    (s : CacheState V) : HandlerResult V :=
  match CacheService.get now key s with
  | (some v, s1) => { outcome := .response v, cache := s1, networkCalls := 0 }
  | (none, s1) =>
    match net with
    | .response v =>
      { outcome := .response v,
        cache := (CacheService.set config now key v ttl s1).2,
        networkCalls := 1 }
    | .failure status =>
      { outcome := .error (.http status), cache := s1, networkCalls := 1 }

/-- The strategy switch of `CacheInterceptor.intercept` (the GET,
non-skip-cache path). -/
def intercept {V : Type} (strategy : CacheStrategy) (config : ICacheConfig)
    (now : Nat) (key : String) (ttl : Option Nat) (net : NetworkOutcome V)
    (s : CacheState V) : HandlerResult V :=
  match strategy with
  | .cacheOnly => handleCacheOnly now key s
  | .networkOnly => handleNetworkOnly config now key ttl net s
  | .networkFirst => handleNetworkFirst config now key ttl net s
  | .cacheFirst => handleCacheFirst config now key ttl net s

end CacheInterceptor

/-- `IRetryConfig` (retry.interceptor.ts). -/
structure IRetryConfig where
  maxRetries : Nat
  retryDelay : Nat
  retryableStatusCodes : List Nat
  exponentialBackoff : Bool
deriving DecidableEq

/-- `DEFAULT_RETRY_CONFIG` (retry.interceptor.ts): 500, 502, 503, 504. -/
def DEFAULT_RETRY_CONFIG : IRetryConfig :=
  { maxRetries := 3, retryDelay := 1000,
    retryableStatusCodes := [500, 502, 503, 504],
    exponentialBackoff := true }

namespace RetryInterceptor

/-- `RetryInterceptor.isRetryable`: 4xx only when in the allow-list;
otherwise status 0 (network error), 5xx, or listed. -/
def isRetryable (status : Nat) (config : IRetryConfig) : Bool :=
  if 400 ≤ status ∧ status < 500 then
    config.retryableStatusCodes.contains status
  else
    (status == 0) || decide (500 ≤ status) ||
      config.retryableStatusCodes.contains status

/-- `RetryInterceptor.calculateDelay`:
`retryDelay * 2^(retryCount - 1)` in exponential mode, else constant. -/
def calculateDelay (retryCount : Nat) (config : IRetryConfig) : Nat :=
  if !config.exponentialBackoff then config.retryDelay
  else config.retryDelay * 2 ^ (retryCount - 1)

/-- Terminal result of the retry loop, carrying how many times the
request was executed in total. -/
inductive RunResult (V : Type) : Type
  | success (v : V) (tries : Nat)
  | failure (status : Nat) (tries : Nat)
deriving DecidableEq

/-- Total number of request executions recorded in a result. -/
def RunResult.tries {V : Type} : RunResult V → Nat
  | .success _ n => n
  | .failure _ n => n

/-- The `retryWhen` loop of `RetryInterceptor.intercept`.  `outcomes i`
is what the `i`-th execution of the request yields (`Except.error` is a
failure with that status).  `fuel` is the number of retries still
allowed, i.e. `maxRetries - retryCount`: the source rethrows the error
once `retryCount >= config.maxRetries`, which is exactly `fuel = 0`.
Non-retryable errors are rethrown at once. -/
def runGo {V : Type} (config : IRetryConfig)
    (outcomes : Nat → Except Nat V) : Nat → Nat → RunResult V
  | fuel, idx =>
    match outcomes idx with
    | .ok v => .success v (idx + 1)
    | .error status =>
      if !isRetryable status config then .failure status (idx + 1)
      else
        match fuel with
        | 0 => .failure status (idx + 1)
        | fuel' + 1 => runGo config outcomes fuel' (idx + 1)

/-- `RetryInterceptor.intercept` on a request that does not skip retry:
the loop starts at `retryCount = 0`, so with `fuel = maxRetries`. -/
def intercept {V : Type} (config : IRetryConfig)
    (outcomes : Nat → Except Nat V) : RunResult V :=
  runGo config outcomes config.maxRetries 0

/-- The spec-level attempt budget: total tries including the first,
which for this source corresponds to `maxRetries` retries after the
initial execution. -/
def maxAttempts (config : IRetryConfig) : Nat :=
  config.maxRetries + 1

end RetryInterceptor

/-- `STORAGE_KEYS.ACCESS_TOKEN` (storage-keys.constants.ts). -/
def STORAGE_ACCESS_TOKEN : String := "access_token"

/-- `STORAGE_KEYS.REFRESH_TOKEN` (storage-keys.constants.ts). -/
def STORAGE_REFRESH_TOKEN : String := "refresh_token"

/-- JavaScript single-character `split`: every separator starts a new
segment, the empty string yields one empty segment. -/
def splitSegments : List Char → List (List Char)
  | [] => [[]]
  | c :: rest =>
    if c = '.' then [] :: splitSegments rest
    else
      match splitSegments rest with
      | [] => [[c]]
      | seg :: segs => (c :: seg) :: segs

/-- `token.split('.')` of validation.util.ts, as segments of
characters. -/
def splitOnDot (s : String) : List (List Char) :=
  splitSegments s.data

/-- `isValidTokenStructure` (validation.util.ts): rejects a falsy
(empty) token, then checks `token.split('.').length === 3`; segments
themselves are not inspected. -/
def isValidTokenStructure (token : String) : Bool :=
  if token = "" then false
  else (splitOnDot token).length == 3

/-- State of a `TokenService` instance: the two `BehaviorSubject`
values and the durable key-value storage behind `StorageService`
(local storage, whose writes are modelled as always succeeding). -/
structure TokenState where
  accessToken : Option String
  refreshToken : Option String
  storage : List (String × String)
deriving DecidableEq

namespace TokenService

/-- `TokenService.setAccessToken`: rejects a structurally invalid token
without touching any state; otherwise pushes the new value and, when
`persist` is set, writes it to storage. -/
def setAccessToken (token : String) (persist : Bool) (s : TokenState) :
    Bool × TokenState :=
  if !isValidTokenStructure token then (false, s)
  else
    let s1 := { s with accessToken := some token }
    if persist then
      (true, { s1 with storage := mapSet s1.storage STORAGE_ACCESS_TOKEN token })
    else (true, s1)

/-- `TokenService.setRefreshToken`: no validation; pushes the value and
persists when asked. -/
def setRefreshToken (token : String) (persist : Bool) (s : TokenState) :
    Bool × TokenState :=
  let s1 := { s with refreshToken := some token }
  if persist then
    (true, { s1 with storage := mapSet s1.storage STORAGE_REFRESH_TOKEN token })
  else (true, s1)

/-- `TokenService.setTokens`: runs `setAccessToken` then
`setRefreshToken` unconditionally and conjoins the two results. -/
def setTokens (accessToken refreshToken : String) (persist : Bool)
    (s : TokenState) : Bool × TokenState :=
  let a := setAccessToken accessToken persist s
  let r := setRefreshToken refreshToken persist a.2
  (a.1 && r.1, r.2)

/-- `TokenService.clearTokens`: nulls both subjects and removes both
storage keys (removal modelled as always succeeding). -/
def clearTokens (s : TokenState) : Bool × TokenState :=
  (true,
   { accessToken := none, refreshToken := none,
     storage :=
       mapDelete (mapDelete s.storage STORAGE_ACCESS_TOKEN)
         STORAGE_REFRESH_TOKEN })

end TokenService

/-- What the refresh POST request yields: an `IRefreshTokenResponse`
(new access token, optionally a new refresh token) or an
`HttpErrorResponse` status. -/
inductive RefreshOutcome : Type
  | ok (accessToken : String) (refreshToken : Option String)
  | err (status : Nat)
deriving DecidableEq

/-- Caller-visible result of `refreshToken()`. -/
inductive RefreshResult : Type
  | success (accessToken : String) (refreshToken : Option String)
  | noRefreshToken
  | httpFailure (status : Nat)
deriving DecidableEq

/-- State of the `RefreshTokenService` singleton: the shared
`TokenService` state, the `isRefreshingSubject` value, and a count of
refresh POST requests issued so far (the observable network effect;
the scheduling timer is not modelled). -/
structure RefreshServiceState where
  tokens : TokenState
  isRefreshing : Bool
  networkCalls : Nat
deriving DecidableEq

namespace RefreshTokenService

/-- `RefreshTokenService.handleRefreshError`: clears the token store
only for status 401 or 403; every other failure leaves it untouched. -/
def handleRefreshError (status : Nat) (ts : TokenState) : TokenState :=
  if status == 401 || status == 403 then (TokenService.clearTokens ts).2
  else ts

/-- `RefreshTokenService.refreshToken` on one subscription, given the
`outcome` the network produces for it.  Note the source never consults
`isRefreshingSubject` before posting: whenever a refresh token is
present it marks in-flight and issues a fresh POST, then on success
installs the tokens and on failure runs `handleRefreshError` and
rethrows the error. -/
def refreshToken (outcome : RefreshOutcome) (s : RefreshServiceState) :
    RefreshResult × RefreshServiceState :=
  match s.tokens.refreshToken with
  | none => (.noRefreshToken, s)
  | some _ =>
    let s1 : RefreshServiceState :=
      { s with isRefreshing := true, networkCalls := s.networkCalls + 1 }
    match outcome with
    | .ok newAccess newRefresh =>
      let ts1 := (TokenService.setAccessToken newAccess true s1.tokens).2
      let ts2 :=
        match newRefresh with
        | some rt => (TokenService.setRefreshToken rt true ts1).2
        | none => ts1
      (.success newAccess newRefresh,
       { s1 with tokens := ts2, isRefreshing := false })
    | .err status =>
      (.httpFailure status,
       { s1 with tokens := handleRefreshError status s1.tokens,
                 isRefreshing := false })

end RefreshTokenService

/-- What the `catchError` of `AuthInterceptor.intercept` decides for a
failed request. -/
inductive AuthCatchAction : Type
  | refreshAndRetry
  | propagate
deriving DecidableEq

/-- The guard in `AuthInterceptor.intercept`: `handle401Error` (which
calls `refreshToken()`) runs only for a 401 while the interceptor's own
`isRefreshingSubject` is false; any other error — including a 401 seen
while a refresh is flagged in flight — is propagated unchanged, without
attaching the caller to the pending refresh. -/
def AuthInterceptor.catchAction (status : Nat) (isRefreshingFlag : Bool) :
    AuthCatchAction :=
  if status == 401 && !isRefreshingFlag then .refreshAndRetry
  else .propagate

/-! ### Association-list facts about the `Map` model -/

theorem mapGet_mapSet_self {E : Type} (l : List (String × E)) (k : String)
    (e : E) : mapGet (mapSet l k e) k = some e := by
  induction l with
  | nil => simp [mapGet, mapSet]
  | cons p rest ih =>
    by_cases hp : p.1 = k
    · simp [mapGet, mapSet, hp]
    · simp [mapGet, mapSet, hp, ih]

theorem mapGet_mapSet_ne {E : Type} (l : List (String × E)) (k k' : String)
    (e : E) (h : k' ≠ k) : mapGet (mapSet l k e) k' = mapGet l k' := by
  induction l with
  | nil =>
    have : ¬ k = k' := fun hq => h hq.symm
    simp [mapGet, mapSet, this]
  | cons p rest ih =>
    by_cases hp : p.1 = k
    · have : ¬ k = k' := fun hq => h hq.symm
      simp [mapGet, mapSet, hp, this]
    · simp [mapGet, mapSet, hp, ih]

theorem mapGet_mapDelete_self {E : Type} (l : List (String × E))
    (k : String) : mapGet (mapDelete l k) k = none := by
  induction l with
  | nil => simp [mapGet, mapDelete]
  | cons p rest ih =>
    by_cases hp : p.1 = k
    · simp [mapDelete, hp, ih]
    · simp [mapGet, mapDelete, hp, ih]

theorem mapGet_mapDelete_ne {E : Type} (l : List (String × E))
    (k k' : String) (h : k' ≠ k) :
    mapGet (mapDelete l k) k' = mapGet l k' := by
  induction l with
  | nil => simp [mapDelete]
  | cons p rest ih =>
    by_cases hp : p.1 = k
    · have hkk : ¬ k = k' := fun hq => h hq.symm
      simp [mapGet, mapDelete, hp, hkk, ih]
    · simp [mapGet, mapDelete, hp, ih]

/-- The default retry configuration with `baseDelayMs = 100`, used by
the spec's backoff example. -/
def retryConfig100 : IRetryConfig :=
  { DEFAULT_RETRY_CONFIG with retryDelay := 100 }

/-- C8: the backoff delay is a pure function of the attempt number —
for every attempt `n ≥ 1`, `delay(n) = baseDelayMs * 2^(n-1)` in
exponential mode and `baseDelayMs` otherwise; with `baseDelayMs = 100`
in exponential mode, attempts 1, 2, 3 produce delays 100, 200, 400. -/
theorem calculateDelay_spec :
    (∀ (n : Nat) (config : IRetryConfig), 1 ≤ n →
      RetryInterceptor.calculateDelay n config =
        if config.exponentialBackoff then config.retryDelay * 2 ^ (n - 1)
        else config.retryDelay) ∧
    RetryInterceptor.calculateDelay 1 retryConfig100 = 100 ∧
    RetryInterceptor.calculateDelay 2 retryConfig100 = 200 ∧
    RetryInterceptor.calculateDelay 3 retryConfig100 = 400 := by
  refine ⟨?_, by decide, by decide, by decide⟩
  intro n config _
  unfold RetryInterceptor.calculateDelay
  cases h : config.exponentialBackoff <;> simp [h]

/-- Witness for C8: attempt 3 with base delay 100 in exponential mode. -/
theorem calculateDelay_spec_witness :
    RetryInterceptor.calculateDelay 3 retryConfig100 =
      (if retryConfig100.exponentialBackoff then
        retryConfig100.retryDelay * 2 ^ (3 - 1)
      else retryConfig100.retryDelay) :=
  calculateDelay_spec.1 3 retryConfig100 (by decide)

/-- C10: the `network-first` and `network-only` handlers are
extensionally equal — for every request, cache state and network
outcome both execute exactly one network call without reading the
cache first, write a successful response through under the same key
and TTL, and surface network failures identically, so selecting one
strategy over the other never changes the observable result. -/
theorem networkFirst_eq_networkOnly :
    ∀ (V : Type) (config : ICacheConfig) (now : Nat) (key : String)
      (ttl : Option Nat) (net : NetworkOutcome V) (s : CacheState V),
      CacheInterceptor.handleNetworkFirst config now key ttl net s =
        CacheInterceptor.handleNetworkOnly config now key ttl net s ∧
      CacheInterceptor.intercept .networkFirst config now key ttl net s =
        CacheInterceptor.intercept .networkOnly config now key ttl net s ∧
      (CacheInterceptor.handleNetworkFirst config now key ttl net s).networkCalls = 1 ∧
      (∀ v, net = .response v →
        CacheInterceptor.handleNetworkFirst config now key ttl net s =
          { outcome := .response v,
            cache := (CacheService.set config now key v ttl s).2,
            networkCalls := 1 }) ∧
      (∀ status, net = .failure status →
        CacheInterceptor.handleNetworkFirst config now key ttl net s =
          { outcome := .error (.http status), cache := s,
            networkCalls := 1 }) := by
  intro V config now key ttl net s
  refine ⟨?_, ?_, ?_, ?_, ?_⟩ <;>
    cases net <;>
      simp [CacheInterceptor.handleNetworkFirst,
        CacheInterceptor.handleNetworkOnly, CacheInterceptor.intercept]

/-- C9: under the `cache-only` strategy the interceptor never issues a
network call, and whenever the key has no unexpired cache entry the
call terminates with the cache-miss error rather than falling back to
the network. -/
theorem cacheOnly_terminal_miss :
    ∀ (V : Type) (config : ICacheConfig) (now : Nat) (key : String)
      (ttl : Option Nat) (net : NetworkOutcome V) (s : CacheState V),
      (CacheInterceptor.intercept .cacheOnly config now key ttl net s).networkCalls = 0 ∧
      ((∀ e, mapGet s.entries key = some e →
          CacheService.isExpired now e = true) →
        (CacheInterceptor.intercept .cacheOnly config now key ttl net s).outcome =
          .error .cacheMiss) := by
  intro V config now key ttl net s
  constructor
  · unfold CacheInterceptor.intercept CacheInterceptor.handleCacheOnly
    rcases hres : CacheService.get now key s with ⟨cached, s1⟩
    cases cached <;> simp [hres]
  · intro hmiss
    unfold CacheInterceptor.intercept CacheInterceptor.handleCacheOnly
    have hnone : (CacheService.get now key s).1 = none := by
      unfold CacheService.get
      cases hg : mapGet s.entries key with
      | none => simp
      | some e => simp [hmiss e hg]
    rcases hres : CacheService.get now key s with ⟨cached, s1⟩
    rw [hres] at hnone
    cases cached with
    | none => simp
    | some v => simp at hnone

/-- Witness for C9: an empty cache under `cache-only` makes no network
call and fails with the cache-miss error. -/
theorem cacheOnly_terminal_miss_witness :
    (CacheInterceptor.intercept .cacheOnly DEFAULT_CACHE_CONFIG 0 "k" none
      (NetworkOutcome.response (42 : Nat)) ⟨[], 0, 0, 0⟩).networkCalls = 0 ∧
    (CacheInterceptor.intercept .cacheOnly DEFAULT_CACHE_CONFIG 0 "k" none
      (NetworkOutcome.response (42 : Nat)) ⟨[], 0, 0, 0⟩).outcome =
      .error .cacheMiss := by
  have h := cacheOnly_terminal_miss Nat DEFAULT_CACHE_CONFIG 0 "k" none
    (NetworkOutcome.response 42) ⟨[], 0, 0, 0⟩
  exact ⟨h.1, h.2 (by intro e he; simp [mapGet] at he)⟩

/-- Counterexample to C5 as stated: the token `".."` does not consist
of three non-empty segments (all three are empty), yet
`setAccessToken` accepts it and installs it, because the source only
checks `split('.').length === 3`. -/
theorem setAccessToken_accepts_empty_segments :
    splitOnDot ".." = [[], [], []] ∧
    TokenService.setAccessToken ".." true
        { accessToken := none, refreshToken := none, storage := [] } =
      (true,
       { accessToken := some "..", refreshToken := none,
         storage := [(STORAGE_ACCESS_TOKEN, "..")] }) := by
  constructor
  · rfl
  · rfl

/-- C5 amended: `setAccessToken` accepts a token iff it is a non-empty
string splitting into exactly three dot-separated segments — the
segments themselves may be empty; on every other input it reports
failure and leaves the whole state (so also the installed access
token) unchanged. -/
theorem setAccessToken_structure_rule (token : String) (s : TokenState) :
    ((TokenService.setAccessToken token true s).1 = true ↔
      (¬ token = "" ∧ (splitOnDot token).length = 3)) ∧
    (isValidTokenStructure token = false →
      TokenService.setAccessToken token true s = (false, s)) := by
  constructor
  · unfold TokenService.setAccessToken isValidTokenStructure
    by_cases h0 : token = ""
    · simp [h0]
    · by_cases h3 : (splitOnDot token).length = 3
      · by_cases hp : true = true <;> simp [h0, h3]
      · simp [h0, h3]
  · intro hinvalid
    unfold TokenService.setAccessToken
    simp [hinvalid]

/-- Witness for C5 amended: the one-segment token `"bad"` is rejected
and nothing is installed. -/
theorem setAccessToken_structure_rule_witness :
    TokenService.setAccessToken "bad" true
        { accessToken := none, refreshToken := none, storage := [] } =
      (false, { accessToken := none, refreshToken := none, storage := [] }) :=
  (setAccessToken_structure_rule "bad"
    { accessToken := none, refreshToken := none, storage := [] }).2 (by decide)

/-- Counterexample to C6 as stated: with the invalid access token
`"bad"`, `setTokens` reports failure, yet the refresh token is still
replaced and persisted — the operation is not atomic on error. -/
theorem setTokens_persists_refresh_on_failure :
    TokenService.setTokens "bad" "newRefresh" true
        { accessToken := none, refreshToken := some "old", storage := [] } =
      (false,
       { accessToken := none, refreshToken := some "newRefresh",
         storage := [(STORAGE_REFRESH_TOKEN, "newRefresh")] }) := by
  rfl

/-- C6 amended: when the access token fails structural validation,
`setTokens` reports failure and leaves the access token and its
persisted copy unchanged, but it still installs and persists the
refresh token (the pair update is not atomic). -/
theorem setTokens_nonatomic_on_invalid_access (a r : String)
    (s : TokenState) (h : isValidTokenStructure a = false) :
    TokenService.setTokens a r true s =
      (false,
       { accessToken := s.accessToken, refreshToken := some r,
         storage := mapSet s.storage STORAGE_REFRESH_TOKEN r }) := by
  unfold TokenService.setTokens TokenService.setRefreshToken
    TokenService.setAccessToken
  simp [h]

/-- Witness for C6 amended. -/
theorem setTokens_nonatomic_on_invalid_access_witness :
    TokenService.setTokens "bad" "r2" true
        { accessToken := some "a.b.c", refreshToken := some "r1",
          storage := [] } =
      (false,
       { accessToken := some "a.b.c", refreshToken := some "r2",
         storage := mapSet [] STORAGE_REFRESH_TOKEN "r2" }) :=
  setTokens_nonatomic_on_invalid_access "bad" "r2"
    { accessToken := some "a.b.c", refreshToken := some "r1", storage := [] }
    (by decide)

/-- Counterexample to C1 as stated: a call to `refreshToken()` made
while a refresh is already in flight (`isRefreshing = true`) still
issues its own refresh network request — the in-flight flag is never
consulted before posting, so the network-call count rises from 0 to 1. -/
theorem refreshToken_second_call_issues_request :
    ({ tokens := { accessToken := some "a.b.c", refreshToken := some "r",
                   storage := [] },
       isRefreshing := true, networkCalls := 0 } :
        RefreshServiceState).isRefreshing = true ∧
    (RefreshTokenService.refreshToken (.ok "x.y.z" none)
      { tokens := { accessToken := some "a.b.c", refreshToken := some "r",
                    storage := [] },
        isRefreshing := true, networkCalls := 0 }).2.networkCalls = 1 := by
  exact ⟨rfl, rfl⟩

/-- C1 amended: `refreshToken()` performs no single-flight fan-out —
every call that finds a refresh token issues its own refresh network
request, even while a refresh is already in flight; concurrent
duplication of the refresh triggered by 401s is only mitigated in
`AuthInterceptor`, which, while its own refreshing flag is set, does
not invoke the refresh for a 401 but propagates the error to that
caller instead of handing it the pending outcome. -/
theorem refreshToken_no_fanout (outcome : RefreshOutcome)
    (s : RefreshServiceState) (rt : String)
    (h : s.tokens.refreshToken = some rt) :
    (RefreshTokenService.refreshToken outcome s).2.networkCalls =
      s.networkCalls + 1 ∧
    (∀ status : Nat, AuthInterceptor.catchAction status true = .propagate) := by
  constructor
  · unfold RefreshTokenService.refreshToken
    rw [h]
    cases outcome with
    | ok newAccess newRefresh => cases newRefresh <;> simp
    | err status => simp
  · intro status
    unfold AuthInterceptor.catchAction
    simp

/-- Witness for C1 amended. -/
theorem refreshToken_no_fanout_witness :
    (RefreshTokenService.refreshToken (.err 500)
      { tokens := { accessToken := none, refreshToken := some "r",
                    storage := [] },
        isRefreshing := true, networkCalls := 3 }).2.networkCalls = 3 + 1 ∧
    (∀ status : Nat, AuthInterceptor.catchAction status true = .propagate) :=
  refreshToken_no_fanout (.err 500)
    { tokens := { accessToken := none, refreshToken := some "r",
                  storage := [] },
      isRefreshing := true, networkCalls := 3 } "r" rfl

/-- Counterexample to C2 as stated: a refresh failure with status 500
leaves both stored tokens in place — the credential store is not
cleared, though the failure is propagated. -/
theorem refreshError_500_keeps_tokens :
    RefreshTokenService.refreshToken (.err 500)
        { tokens := { accessToken := some "a.b.c", refreshToken := some "r",
                      storage := [(STORAGE_ACCESS_TOKEN, "a.b.c"),
                                  (STORAGE_REFRESH_TOKEN, "r")] },
          isRefreshing := false, networkCalls := 0 } =
      (.httpFailure 500,
       { tokens := { accessToken := some "a.b.c", refreshToken := some "r",
                     storage := [(STORAGE_ACCESS_TOKEN, "a.b.c"),
                                 (STORAGE_REFRESH_TOKEN, "r")] },
         isRefreshing := false, networkCalls := 1 }) := by
  rfl

/-- C2 amended: every refresh failure is propagated to the caller and
resets the in-flight flag, but the credential store is cleared only
when the failure status is 401 or 403; any other failure leaves both
tokens untouched. -/
theorem refresh_failure_clears_only_auth (status : Nat)
    (s : RefreshServiceState) (rt : String)
    (h : s.tokens.refreshToken = some rt) :
    RefreshTokenService.refreshToken (.err status) s =
      (.httpFailure status,
       { tokens :=
           if status == 401 || status == 403 then
             (TokenService.clearTokens s.tokens).2
           else s.tokens,
         isRefreshing := false,
         networkCalls := s.networkCalls + 1 }) := by
  unfold RefreshTokenService.refreshToken
    RefreshTokenService.handleRefreshError
  rw [h]

/-- Witness for C2 amended: a 503 failure propagates and keeps the
tokens. -/
theorem refresh_failure_clears_only_auth_witness :
    RefreshTokenService.refreshToken (.err 503)
        { tokens := { accessToken := some "a.b.c", refreshToken := some "r",
                      storage := [] },
          isRefreshing := false, networkCalls := 0 } =
      (.httpFailure 503,
       { tokens :=
           if (503 : Nat) == 401 || (503 : Nat) == 403 then
             (TokenService.clearTokens
               { accessToken := some "a.b.c", refreshToken := some "r",
                 storage := [] }).2
           else
             { accessToken := some "a.b.c", refreshToken := some "r",
               storage := [] },
         isRefreshing := false, networkCalls := 0 + 1 }) :=
  refresh_failure_clears_only_auth 503
    { tokens := { accessToken := some "a.b.c", refreshToken := some "r",
                  storage := [] },
      isRefreshing := false, networkCalls := 0 } "r" rfl

/-- The retry loop executes the request at most `fuel + 1` more times
beyond the `idx` executions already performed. -/
theorem runGo_tries_le {V : Type} (config : IRetryConfig)
    (outcomes : Nat → Except Nat V) :
    ∀ (fuel idx : Nat),
      (RetryInterceptor.runGo config outcomes fuel idx).tries ≤
        idx + fuel + 1 := by
  intro fuel
  induction fuel with
  | zero =>
    intro idx
    unfold RetryInterceptor.runGo
    cases outcomes idx with
    | ok v => simp [RetryInterceptor.RunResult.tries]
    | error status =>
      by_cases h : RetryInterceptor.isRetryable status config <;>
        simp [h, RetryInterceptor.RunResult.tries]
  | succ f ih =>
    intro idx
    unfold RetryInterceptor.runGo
    cases outcomes idx with
    | ok v => simp [RetryInterceptor.RunResult.tries]
    | error status =>
      by_cases h : RetryInterceptor.isRetryable status config
      · simp only [h]
        have := ih (idx + 1)
        simp only [Bool.not_true, Bool.false_eq_true, if_false]
        calc (RetryInterceptor.runGo config outcomes f (idx + 1)).tries
            ≤ idx + 1 + f + 1 := this
          _ ≤ idx + (f + 1) + 1 := by omega
      · simp [h, RetryInterceptor.RunResult.tries]

/-- When every execution the budget allows fails retryably, the loop
surfaces the failure of the very last execution unchanged, after
exactly `fuel + 1` further executions. -/
theorem runGo_exhaust {V : Type} (config : IRetryConfig)
    (outcomes : Nat → Except Nat V) :
    ∀ (fuel idx : Nat),
      (∀ j, idx ≤ j → j ≤ idx + fuel →
        ∃ st, outcomes j = .error st ∧
          RetryInterceptor.isRetryable st config = true) →
      ∃ st, outcomes (idx + fuel) = .error st ∧
        RetryInterceptor.runGo config outcomes fuel idx =
          .failure st (idx + fuel + 1) := by
  intro fuel
  induction fuel with
  | zero =>
    intro idx h
    obtain ⟨st, hst, hretry⟩ := h idx (le_refl idx) (by omega)
    refine ⟨st, by simpa using hst, ?_⟩
    unfold RetryInterceptor.runGo
    simp [hst, hretry]
  | succ f ih =>
    intro idx h
    obtain ⟨st0, hst0, hretry0⟩ := h idx (le_refl idx) (by omega)
    have hstep :
        RetryInterceptor.runGo config outcomes (f + 1) idx =
          RetryInterceptor.runGo config outcomes f (idx + 1) := by
      conv_lhs => unfold RetryInterceptor.runGo
      simp [hst0, hretry0]
    obtain ⟨st, hst, hrun⟩ := ih (idx + 1) (by
      intro j hj1 hj2
      exact h j (by omega) (by omega))
    refine ⟨st, ?_, ?_⟩
    · have : idx + 1 + f = idx + (f + 1) := by omega
      rwa [this] at hst
    · rw [hstep]
      have : idx + 1 + f = idx + (f + 1) := by omega
      rwa [this] at hrun

/-- C4: `maxAttempts` (total tries including the first, i.e.
`maxRetries + 1` for this source) bounds the number of times the retry
loop executes the request; and when the whole budget is used up on
retry-eligible failures, the failure of the last execution is surfaced
to the caller unchanged, no intermediate failure having escaped. -/
theorem retry_attempt_budget :
    ∀ (V : Type) (config : IRetryConfig) (outcomes : Nat → Except Nat V),
      (RetryInterceptor.intercept config outcomes).tries ≤
        RetryInterceptor.maxAttempts config ∧
      ((∀ j, j ≤ config.maxRetries →
          ∃ st, outcomes j = .error st ∧
            RetryInterceptor.isRetryable st config = true) →
        ∃ st, outcomes config.maxRetries = .error st ∧
          RetryInterceptor.intercept config outcomes =
            .failure st (RetryInterceptor.maxAttempts config)) := by
  intro V config outcomes
  constructor
  · have := runGo_tries_le config outcomes config.maxRetries 0
    unfold RetryInterceptor.intercept RetryInterceptor.maxAttempts
    omega
  · intro h
    obtain ⟨st, hst, hrun⟩ :=
      runGo_exhaust config outcomes config.maxRetries 0 (by
        intro j hj1 hj2
        exact h j (by omega))
    refine ⟨st, by simpa using hst, ?_⟩
    unfold RetryInterceptor.intercept RetryInterceptor.maxAttempts
    simpa using hrun

/-- Witness for C4: with the default configuration (3 retries) and a
request that always fails with 500, the loop runs the request 4 times
in total and surfaces the last 500. -/
theorem retry_attempt_budget_witness :
    (RetryInterceptor.intercept DEFAULT_RETRY_CONFIG
        (fun _ => (Except.error 500 : Except Nat Nat))).tries ≤
      RetryInterceptor.maxAttempts DEFAULT_RETRY_CONFIG ∧
    (∃ st, (fun _ => (Except.error 500 : Except Nat Nat))
          DEFAULT_RETRY_CONFIG.maxRetries = .error st ∧
      RetryInterceptor.intercept DEFAULT_RETRY_CONFIG
          (fun _ => (Except.error 500 : Except Nat Nat)) =
        .failure st (RetryInterceptor.maxAttempts DEFAULT_RETRY_CONFIG)) := by
  have h := retry_attempt_budget Nat DEFAULT_RETRY_CONFIG
    (fun _ => (Except.error 500 : Except Nat Nat))
  exact ⟨h.1, h.2 (fun j _ => ⟨500, rfl, by decide⟩)⟩

/-- Counterexample to C3 as stated: an entry stored with TTL `t = 0`
(at creation time `c = 5`) gets `expiresAt = undefined` — the source
treats the falsy TTL as "no expiry" — so a `get` at time `5 ≥ c + t`
still returns the value and increments `hits`, where the claim
demands a miss. -/
theorem cache_ttl_zero_still_hit :
    (CacheService.set DEFAULT_CACHE_CONFIG 5 "k" (42 : Nat) (some 0)
        ⟨[], 0, 0, 0⟩).2.entries =
      [("k", { key := "k", value := 42, timestamp := 5, ttl := some 0,
               expiresAt := none })] ∧
    (CacheService.get 5 "k"
        (CacheService.set DEFAULT_CACHE_CONFIG 5 "k" (42 : Nat) (some 0)
          ⟨[], 0, 0, 0⟩).2).1 = some 42 ∧
    (CacheService.get 5 "k"
        (CacheService.set DEFAULT_CACHE_CONFIG 5 "k" (42 : Nat) (some 0)
          ⟨[], 0, 0, 0⟩).2).2.stats.hits = 1 := by
  refine ⟨rfl, rfl, rfl⟩

/-- The entry a successful `set` leaves under its key. -/
theorem set_lookup {V : Type} (config : ICacheConfig) (c : Nat)
    (key : String) (v : V) (ttl : Option Nat) (s : CacheState V)
    (hen : config.enabled = some true) :
    mapGet (CacheService.set config c key v ttl s).2.entries key =
      some { key := key, value := v, timestamp := c,
             ttl := ttl.orElse (fun _ => config.ttl),
             expiresAt :=
               if truthyNum (ttl.orElse (fun _ => config.ttl)) then
                 some (c + (ttl.orElse (fun _ => config.ttl)).getD 0)
               else none } := by
  unfold CacheService.set
  simp [hen, mapGet_mapSet_self]

/-- C3 amended: for every entry stored by `set` with a positive TTL `t`
at creation time `c`, a `get` at any time strictly before `c + t`
returns the value and increments `hits`, and a `get` at or after
`c + t` returns nothing, removes the entry and increments `misses`
(an entry stored with TTL `0` instead never expires by time). -/
theorem cache_ttl_hit_before_miss_after (V : Type) (config : ICacheConfig)
    (c t now : Nat) (key : String) (v : V) (s s1 : CacheState V) (ok : Bool)
    (hen : config.enabled = some true) (ht : 0 < t)
    (hset : CacheService.set config c key v (some t) s = (ok, s1)) :
    (now < c + t →
      CacheService.get now key s1 =
        (some v,
         { s1 with stats := { s1.stats with hits := s1.stats.hits + 1 } })) ∧
    (c + t ≤ now →
      CacheService.get now key s1 =
        (none,
         { entries := mapDelete s1.entries key,
           stats := { s1.stats with misses := s1.stats.misses + 1 } })) := by
  have htne : t ≠ 0 := by omega
  have hlook := set_lookup config c key v (some t) s hen
  rw [hset] at hlook
  simp only [Option.orElse, truthyNum] at hlook
  rw [if_pos (by simpa using htne)] at hlook
  simp only [Option.getD] at hlook
  constructor
  · intro hlt
    have hexp :
        CacheService.isExpired now
          ({ key := key, value := v, timestamp := c, ttl := some t,
             expiresAt := some (c + t) } : ICacheEntry V) = false := by
      unfold CacheService.isExpired
      have : (c + t != 0) = true := by
        simp
        omega
      simp [truthyNum, this]
      omega
    simp [CacheService.get, hlook, hexp]
  · intro hge
    have hexp :
        CacheService.isExpired now
          ({ key := key, value := v, timestamp := c, ttl := some t,
             expiresAt := some (c + t) } : ICacheEntry V) = true := by
      unfold CacheService.isExpired
      have : (c + t != 0) = true := by
        simp
        omega
      simp [truthyNum, this]
      omega
    simp [CacheService.get, hlook, hexp]

/-- Witness for C3 amended: `ttlMs = 1000` stored at time 0 is a hit at
999 and a miss (with removal) at 1000. -/
theorem cache_ttl_hit_before_miss_after_witness :
    (CacheService.get 999 "k"
        ⟨[("k", { key := "k", value := (42 : Nat), timestamp := 0,
                  ttl := some 1000, expiresAt := some 1000 })], 0, 0, 0⟩ =
      (some 42,
       { (⟨[("k", { key := "k", value := (42 : Nat), timestamp := 0,
                    ttl := some 1000, expiresAt := some 1000 })], 0, 0, 0⟩ :
            CacheState Nat) with
         stats := { hits := 1, misses := 0, evictions := 0 } })) ∧
    (CacheService.get 1000 "k"
        ⟨[("k", { key := "k", value := (42 : Nat), timestamp := 0,
                  ttl := some 1000, expiresAt := some 1000 })], 0, 0, 0⟩ =
      (none,
       { entries := [], stats := { hits := 0, misses := 1, evictions := 0 } })) := by
  have h999 := (cache_ttl_hit_before_miss_after Nat DEFAULT_CACHE_CONFIG
    0 1000 999 "k" 42 ⟨[], 0, 0, 0⟩
    ⟨[("k", { key := "k", value := 42, timestamp := 0, ttl := some 1000,
              expiresAt := some 1000 })], 0, 0, 0⟩ true rfl (by omega) rfl).1
    (by omega)
  have h1000 := (cache_ttl_hit_before_miss_after Nat DEFAULT_CACHE_CONFIG
    0 1000 1000 "k" 42 ⟨[], 0, 0, 0⟩
    ⟨[("k", { key := "k", value := 42, timestamp := 0, ttl := some 1000,
              expiresAt := some 1000 })], 0, 0, 0⟩ true rfl (by omega) rfl).2
    (by omega)
  constructor
  · exact h999
  · simpa [mapDelete] using h1000

/-- The eviction scan always yields a key once seeded. -/
theorem findOldestGo_isSome {V : Type} :
    ∀ (l : List (String × ICacheEntry V)) (k0 : String) (t0 : Nat),
      ∃ k t, CacheService.findOldestGo (some (k0, t0)) l = some (k, t) := by
  intro l
  induction l with
  | nil => intro k0 t0; exact ⟨k0, t0, rfl⟩
  | cons p rest ih =>
    intro k0 t0
    rcases p with ⟨a, e⟩
    unfold CacheService.findOldestGo
    by_cases hlt : e.timestamp < t0
    · simpa [hlt] using ih a e.timestamp
    · simpa [hlt] using ih k0 t0

/-- What the seeded eviction scan returns: a timestamp no larger than
the seed and than every scanned entry, and either the seed itself or
the first entry of the list attaining a strictly smaller timestamp. -/
theorem findOldestGo_spec {V : Type} :
    ∀ (l : List (String × ICacheEntry V)) (k0 : String) (t0 : Nat)
      (k : String) (t : Nat),
      CacheService.findOldestGo (some (k0, t0)) l = some (k, t) →
      t ≤ t0 ∧ (∀ p ∈ l, t ≤ p.2.timestamp) ∧
      ((k = k0 ∧ t = t0) ∨
        ∃ l1 e l2, l = l1 ++ (k, e) :: l2 ∧ e.timestamp = t ∧ t < t0 ∧
          ∀ p ∈ l1, t < p.2.timestamp) := by
  intro l
  induction l with
  | nil =>
    intro k0 t0 k t h
    unfold CacheService.findOldestGo at h
    obtain ⟨h1, h2⟩ : k0 = k ∧ t0 = t := by simpa using h
    subst h1
    subst h2
    exact ⟨le_refl _, by simp, Or.inl ⟨rfl, rfl⟩⟩
  | cons p rest ih =>
    intro k0 t0 k t h
    rcases p with ⟨a, e⟩
    unfold CacheService.findOldestGo at h
    replace h :
        (if e.timestamp < t0 then
          CacheService.findOldestGo (some (a, e.timestamp)) rest
        else CacheService.findOldestGo (some (k0, t0)) rest) = some (k, t) := h
    by_cases hlt : e.timestamp < t0
    · rw [if_pos hlt] at h
      obtain ⟨h1, h2, h3⟩ := ih a e.timestamp k t h
      refine ⟨by omega, ?_, ?_⟩
      · intro q hq
        rcases List.mem_cons.mp hq with hq | hq
        · rw [hq]; exact h1
        · exact h2 q hq
      · rcases h3 with ⟨hk, ht⟩ | ⟨l1, e1, l2, hsplit, hts, hlt1, hall⟩
        · subst hk
          subst ht
          exact Or.inr ⟨[], e, rest, by simp, rfl, hlt, by simp⟩
        · refine Or.inr ⟨(a, e) :: l1, e1, l2, by simp [hsplit], hts, by omega, ?_⟩
          intro q hq
          rcases List.mem_cons.mp hq with hq | hq
          · rw [hq]; exact hlt1
          · exact hall q hq
    · rw [if_neg hlt] at h
      obtain ⟨h1, h2, h3⟩ := ih k0 t0 k t h
      refine ⟨h1, ?_, ?_⟩
      · intro q hq
        rcases List.mem_cons.mp hq with hq | hq
        · rw [hq]
          show t ≤ e.timestamp
          omega
        · exact h2 q hq
      · rcases h3 with ⟨hk, ht⟩ | ⟨l1, e1, l2, hsplit, hts, hlt1, hall⟩
        · exact Or.inl ⟨hk, ht⟩
        · refine Or.inr ⟨(a, e) :: l1, e1, l2, by simp [hsplit], hts, hlt1, ?_⟩
          intro q hq
          rcases List.mem_cons.mp hq with hq | hq
          · rw [hq]
            show t < e.timestamp
            omega
          · exact hall q hq

/-- The key the eviction scan selects on a non-empty map carries the
minimal timestamp, and is the first entry in insertion order to attain
it. -/
theorem findOldest_spec {V : Type} (l : List (String × ICacheEntry V))
    (k : String) (t : Nat) (h : CacheService.findOldest l = some (k, t)) :
    (∀ p ∈ l, t ≤ p.2.timestamp) ∧
    ∃ l1 e l2, l = l1 ++ (k, e) :: l2 ∧ e.timestamp = t ∧
      ∀ p ∈ l1, t < p.2.timestamp := by
  cases l with
  | nil => exact absurd h (by simp [CacheService.findOldest, CacheService.findOldestGo])
  | cons p rest =>
    rcases p with ⟨a, e⟩
    have h' : CacheService.findOldestGo (some (a, e.timestamp)) rest = some (k, t) := by
      simpa [CacheService.findOldest, CacheService.findOldestGo] using h
    obtain ⟨h1, h2, h3⟩ := findOldestGo_spec rest a e.timestamp k t h'
    constructor
    · intro q hq
      rcases List.mem_cons.mp hq with hq | hq
      · rw [hq]; exact h1
      · exact h2 q hq
    · rcases h3 with ⟨hk, ht⟩ | ⟨l1, e1, l2, hsplit, hts, hlt1, hall⟩
      · subst hk
        subst ht
        exact ⟨[], e, rest, by simp, rfl, by simp⟩
      · refine ⟨(a, e) :: l1, e1, l2, by simp [hsplit], hts, ?_⟩
        intro q hq
        rcases List.mem_cons.mp hq with hq | hq
        · rw [hq]; exact hlt1
        · exact hall q hq

/-- C7: a `set` performed while the cache already holds at least
`maxSize` entries (under the default LRU strategy) first evicts
exactly one entry — the one with the oldest creation timestamp, which
is the first inserted among those attaining it — counts one eviction,
and only then inserts the new entry; every other entry survives
unchanged, so with `maxSize = 2` the second and third keys remain
retrievable after the first-inserted key is evicted. -/
theorem cache_evicts_oldest_at_capacity (V : Type) (config : ICacheConfig)
    (now m : Nat) (key : String) (v : V) (ttl : Option Nat)
    (s : CacheState V) (hen : config.enabled = some true)
    (hmax : config.maxSize = some m) (hm : 0 < m)
    (hsize : m ≤ s.entries.length) (hstrat : config.strategy = some .LRU) :
    ∃ k0 t0,
      CacheService.findOldest s.entries = some (k0, t0) ∧
      (∀ p ∈ s.entries, t0 ≤ p.2.timestamp) ∧
      (∃ l1 e l2, s.entries = l1 ++ (k0, e) :: l2 ∧ e.timestamp = t0 ∧
        ∀ p ∈ l1, t0 < p.2.timestamp) ∧
      (CacheService.set config now key v ttl s).1 = true ∧
      (CacheService.set config now key v ttl s).2.entries =
        mapSet (mapDelete s.entries k0) key
          { key := key, value := v, timestamp := now,
            ttl := ttl.orElse (fun _ => config.ttl),
            expiresAt :=
              if truthyNum (ttl.orElse (fun _ => config.ttl)) then
                some (now + (ttl.orElse (fun _ => config.ttl)).getD 0)
              else none } ∧
      (CacheService.set config now key v ttl s).2.stats.evictions =
        s.stats.evictions + 1 ∧
      (∀ k', k' ≠ k0 → k' ≠ key →
        mapGet (CacheService.set config now key v ttl s).2.entries k' =
          mapGet s.entries k') := by
  have hne : s.entries ≠ [] := by
    intro h0
    rw [h0] at hsize
    simp at hsize
    omega
  obtain ⟨k0, t0, hfind⟩ : ∃ k0 t0,
      CacheService.findOldest s.entries = some (k0, t0) := by
    cases hl : s.entries with
    | nil => exact absurd hl hne
    | cons p rest =>
      rcases p with ⟨a, e⟩
      obtain ⟨k0, t0, hgo⟩ := findOldestGo_isSome rest a e.timestamp
      exact ⟨k0, t0, by
        unfold CacheService.findOldest CacheService.findOldestGo
        exact hgo⟩
  obtain ⟨hmin, hfirst⟩ := findOldest_spec s.entries k0 t0 hfind
  have hevict : CacheService.evict config s =
      { entries := mapDelete s.entries k0,
        stats := { s.stats with evictions := s.stats.evictions + 1 } } := by
    unfold CacheService.evict
    have hempty : s.entries.isEmpty = false := by
      cases hl : s.entries with
      | nil => exact absurd hl hne
      | cons p rest => rfl
    simp [hempty, hstrat, hfind]
  have hcond : (truthyNum config.maxSize &&
      decide (s.entries.length ≥ config.maxSize.getD 0)) = true := by
    rw [hmax]
    simp [truthyNum]
    constructor
    · omega
    · simpa using hsize
  refine ⟨k0, t0, hfind, hmin, hfirst, ?_, ?_, ?_, ?_⟩
  · simp [CacheService.set, hen, hcond]
  · simp [CacheService.set, hen, hcond, hevict]
  · simp [CacheService.set, hen, hcond, hevict]
  · intro k' hk0 hkey
    simp only [CacheService.set, hen, if_true, hcond, hevict]
    rw [mapGet_mapSet_ne _ _ _ _ hkey, mapGet_mapDelete_ne _ _ _ hk0]

/-- Witness for C7: `maxSize = 2`, keys k1 (timestamp 1) and k2
(timestamp 2) present; inserting k3 at time 3 evicts k1, counts one
eviction, and k2 and k3 remain retrievable. -/
theorem cache_evicts_oldest_at_capacity_witness :
    (CacheService.set
        { ttl := none, maxSize := some 2, strategy := some .LRU,
          enabled := some true } 3 "k3" (33 : Nat) none
        ⟨[("k1", { key := "k1", value := 11, timestamp := 1, ttl := none,
                   expiresAt := none }),
          ("k2", { key := "k2", value := 22, timestamp := 2, ttl := none,
                   expiresAt := none })], 0, 0, 0⟩).1 = true ∧
    (CacheService.set
        { ttl := none, maxSize := some 2, strategy := some .LRU,
          enabled := some true } 3 "k3" (33 : Nat) none
        ⟨[("k1", { key := "k1", value := 11, timestamp := 1, ttl := none,
                   expiresAt := none }),
          ("k2", { key := "k2", value := 22, timestamp := 2, ttl := none,
                   expiresAt := none })], 0, 0, 0⟩).2.entries =
      [("k2", { key := "k2", value := 22, timestamp := 2, ttl := none,
                expiresAt := none }),
       ("k3", { key := "k3", value := 33, timestamp := 3, ttl := none,
                expiresAt := none })] ∧
    (CacheService.set
        { ttl := none, maxSize := some 2, strategy := some .LRU,
          enabled := some true } 3 "k3" (33 : Nat) none
        ⟨[("k1", { key := "k1", value := 11, timestamp := 1, ttl := none,
                   expiresAt := none }),
          ("k2", { key := "k2", value := 22, timestamp := 2, ttl := none,
                   expiresAt := none })], 0, 0, 0⟩).2.stats.evictions = 0 + 1 := by
  obtain ⟨k0, t0, hfind, hmin, hfirst, hok, hentries, hev, hpres⟩ :=
    cache_evicts_oldest_at_capacity Nat
      { ttl := none, maxSize := some 2, strategy := some .LRU,
        enabled := some true } 3 2 "k3" 33 none
      ⟨[("k1", { key := "k1", value := 11, timestamp := 1, ttl := none,
                 expiresAt := none }),
        ("k2", { key := "k2", value := 22, timestamp := 2, ttl := none,
                 expiresAt := none })], 0, 0, 0⟩
      rfl rfl (by omega) (by simp) rfl
  have hfind0 : CacheService.findOldest
      ((⟨[("k1", { key := "k1", value := (11 : Nat), timestamp := 1,
                   ttl := none, expiresAt := none }),
          ("k2", { key := "k2", value := 22, timestamp := 2, ttl := none,
                   expiresAt := none })], 0, 0, 0⟩ :
          CacheState Nat)).entries = some ("k1", 1) := rfl
  have hk : "k1" = k0 ∧ 1 = t0 := by
    have := hfind0.symm.trans hfind
    simpa using this
  obtain ⟨hk0, ht0⟩ := hk
  subst hk0
  refine ⟨hok, ?_, hev⟩
  rw [hentries]
  rfl

/-- Witness for C10: the two handlers agree on a concrete successful
call. -/
theorem networkFirst_eq_networkOnly_witness :
    CacheInterceptor.handleNetworkFirst DEFAULT_CACHE_CONFIG 0 "k" none
        (NetworkOutcome.response (7 : Nat)) ⟨[], 0, 0, 0⟩ =
      CacheInterceptor.handleNetworkOnly DEFAULT_CACHE_CONFIG 0 "k" none
        (NetworkOutcome.response 7) ⟨[], 0, 0, 0⟩ :=
  (networkFirst_eq_networkOnly Nat DEFAULT_CACHE_CONFIG 0 "k" none
    (NetworkOutcome.response 7) ⟨[], 0, 0, 0⟩).1
